import Mathlib

/-!
# Verification of the N8N_dummy RAG workflow backend

A shallow embedding, in Lean 4, of the parts of the repository that the
frozen claims are about:

* `app/services/qdrant_service.py` — `filter_by_similarity_threshold`
* `app/utils/validators.py` — `validate_workflow_structure`
* `app/services/embedding_service.py` — `generate_embedding`
* `app/services/conversation_service.py` — `save_workflow`,
  `get_conversation`, `delete_conversation`, `save_message`,
  `_check_summarization_needed`
* `app/utils/json_helpers.py` — `deep_merge`
* `app/routes/health_routes.py` — `health_check`

Python floats carrying similarity scores are embedded as rationals
(the scores compared in the claims are exact decimal fractions),
Python `datetime` timestamps as naturals, and Python exceptions as
`Except` values.  Database state is passed explicitly as a `DB` record
holding the three tables.
-/

set_option autoImplicit false

/-! ## Settings (config.py)

The RAG tuning defaults from `config.py`: `similarity_threshold_high`
(0.7), `similarity_threshold_low` (0.5), `ambiguity_threshold` (0.15). -/

def similarity_threshold_high : ℚ := mkRat 7 10

def similarity_threshold_low : ℚ := mkRat 5 10

def ambiguity_threshold : ℚ := mkRat 15 100

/-! ## Vector search service (app/services/qdrant_service.py)

`search_tools` parses each hit into a record carrying a score and the
denormalized tool/operation metadata.  The classifier only reads
`score`, `tool_slug` and `tool_display_name`, so the embedding keeps
those three fields. -/

structure SearchResult where
  score : ℚ
  tool_slug : String
  tool_display_name : String
deriving DecidableEq, Repr

/-- The dictionary returned by `filter_by_similarity_threshold`.  The
Python function returns dicts with different key sets depending on the
branch; absent keys are embedded as `none`. -/
structure FilterOutcome where
  status : String
  results : List SearchResult
  message : Option String
  confidence_level : Option String
  top_score : Option ℚ
  suggestions : Option (List String)
deriving DecidableEq, Repr

/-- `QdrantService.filter_by_similarity_threshold` (the live definition
at `qdrant_service.py:235-292`; an earlier variant with an "ambiguous"
branch is commented out above it in the source).  Branches, in source
order: empty input ⇒ `no_match`; `top_score < threshold_low` ⇒
`no_match` with the category-listing message; otherwise ⇒ `confident`
with all results, a confidence level, and the top score. -/
def filter_by_similarity_threshold (results : List SearchResult) : FilterOutcome :=
  match results with
  | [] =>
      { status := "no_match"
        results := []
        message := some "No tools found matching your request."
        confidence_level := none
        top_score := none
        suggestions := none }
  | r :: _ =>
      let top_score := r.score
      if top_score < similarity_threshold_low then
        { status := "no_match"
          results := []
          message := some ("No tools found matching your request. " ++
            "Available categories: email, communication, storage, productivity")
          confidence_level := none
          top_score := none
          suggestions := none }
      else
        let confidence_level := if top_score ≥ similarity_threshold_high then "high" else "medium"
        { status := "confident"
          results := results
          message := none
          confidence_level := some confidence_level
          top_score := some top_score
          suggestions := none }

/-! Concrete inputs used by claims C1 and C3. -/

def slackResult : SearchResult := { score := mkRat 82 100, tool_slug := "slack", tool_display_name := "Slack" }

def discordResult : SearchResult := { score := mkRat 81 100, tool_slug := "discord", tool_display_name := "Discord" }

def gmailResult : SearchResult := { score := mkRat 79 100, tool_slug := "gmail", tool_display_name := "Gmail" }

/-- C1: the claim (and the repository's own test
`test_filter_by_similarity_threshold_ambiguous`) requires status
"ambiguous" with three suggestions for the ranked list
`[{slack, 0.82}, {discord, 0.81}, {gmail, 0.79}]` (top score ≥ 0.50,
gap 0.01 < 0.15, three distinct tool slugs).  The live code has no
ambiguous branch: evaluating it at exactly that input yields status
"confident" with all three results and no suggestions field. -/
theorem C1_ambiguous_input_yields_confident :
    filter_by_similarity_threshold [slackResult, discordResult, gmailResult] =
      { status := "confident"
        results := [slackResult, discordResult, gmailResult]
        message := none
        confidence_level := some "high"
        top_score := some (mkRat 82 100)
        suggestions := none } ∧
    (filter_by_similarity_threshold [slackResult, discordResult, gmailResult]).status ≠
      "ambiguous" := by
  constructor
  · decide
  · decide

/-- C3: classification of every result list by the live code.  An empty
list, or a list whose first score is below the low threshold (0.50),
yields `no_match` with empty results and a non-empty message; otherwise
`confident` with all supplied results, `top_score` the first score, and
confidence level "high" exactly when the top score reaches 0.70, else
"medium". -/
theorem C3_filter_classification :
    (∃ m, filter_by_similarity_threshold [] =
        { status := "no_match", results := [], message := some m,
          confidence_level := none, top_score := none, suggestions := none } ∧ m ≠ "") ∧
    (∀ (r : SearchResult) (rest : List SearchResult), r.score < similarity_threshold_low →
      ∃ m, filter_by_similarity_threshold (r :: rest) =
        { status := "no_match", results := [], message := some m,
          confidence_level := none, top_score := none, suggestions := none } ∧ m ≠ "") ∧
    (∀ (r : SearchResult) (rest : List SearchResult), ¬ r.score < similarity_threshold_low →
      (filter_by_similarity_threshold (r :: rest)).status = "confident" ∧
      (filter_by_similarity_threshold (r :: rest)).results = r :: rest ∧
      (filter_by_similarity_threshold (r :: rest)).top_score = some r.score ∧
      ((filter_by_similarity_threshold (r :: rest)).confidence_level = some "high" ↔
        r.score ≥ similarity_threshold_high) ∧
      ((filter_by_similarity_threshold (r :: rest)).confidence_level = some "medium" ↔
        ¬ r.score ≥ similarity_threshold_high)) := by
  refine ⟨⟨"No tools found matching your request.", by decide, by decide⟩, ?_, ?_⟩
  · intro r rest hlow
    refine ⟨"No tools found matching your request. " ++
      "Available categories: email, communication, storage, productivity", ?_, by decide⟩
    simp only [filter_by_similarity_threshold, if_pos hlow]
  · intro r rest hlow
    by_cases hhigh : r.score ≥ similarity_threshold_high
    · simp [filter_by_similarity_threshold, if_neg hlow, if_pos hhigh, hhigh]
    · simp [filter_by_similarity_threshold, if_neg hlow, if_neg hhigh, hhigh]

/-- Witness for C3: the low branch at score 0.3 and the confident branch
at scores 0.85 (high) and 0.55 (medium), on concrete inputs. -/
theorem C3_filter_classification_witness :
    (∃ m, filter_by_similarity_threshold
        [{ score := mkRat 3 10, tool_slug := "gmail", tool_display_name := "Gmail" }] =
        { status := "no_match", results := [], message := some m,
          confidence_level := none, top_score := none, suggestions := none } ∧ m ≠ "") ∧
    (filter_by_similarity_threshold
        [{ score := mkRat 85 100, tool_slug := "gmail", tool_display_name := "Gmail" }]).status =
      "confident" ∧
    (filter_by_similarity_threshold
        [{ score := mkRat 85 100, tool_slug := "gmail", tool_display_name := "Gmail" }]).confidence_level =
      some "high" ∧
    (filter_by_similarity_threshold
        [{ score := mkRat 55 100, tool_slug := "gmail", tool_display_name := "Gmail" }]).confidence_level =
      some "medium" := by
  refine ⟨C3_filter_classification.2.1 _ [] (by decide), ?_, ?_, ?_⟩
  · exact (C3_filter_classification.2.2 _ [] (by decide)).1
  · exact ((C3_filter_classification.2.2 _ [] (by decide)).2.2.2.1).mpr (by decide)
  · exact ((C3_filter_classification.2.2 _ [] (by decide)).2.2.2.2).mpr (by decide)

/-! ## Health route (app/routes/health_routes.py)

`health_check` probes Qdrant (healthy/unavailable), the database
(healthy/unavailable), and classifies the embedding dependency purely
from settings: "configured" when `voyage_ai_key` is truthy and not the
placeholder, else "not_configured".  The two probe outcomes are
embedded as booleans (`false` covers both a failed probe and a raised
exception, which the route maps to the same "unavailable" entry). -/

structure HealthReport where
  status : String
  services : List (String × String)
deriving DecidableEq, Repr

/-- `health_check` (`health_routes.py:24-94`): builds the per-service
status mapping in source order (qdrant, database, embedding), tracks
`overall_healthy`, and derives the overall status: "healthy" if all
good, else "unhealthy" if every services value is "unavailable", else
"degraded". -/
def health_check (qdrant_ok : Bool) (db_ok : Bool) (voyage_ai_key : String) : HealthReport :=
  let qdrant_status := if qdrant_ok then "healthy" else "unavailable"
  let db_status := if db_ok then "healthy" else "unavailable"
  let key_ok := voyage_ai_key ≠ "" ∧ voyage_ai_key ≠ "your_voyage_key_here"
  let embedding_status := if key_ok then "configured" else "not_configured"
  let services := [("qdrant", qdrant_status), ("database", db_status),
    ("embedding", embedding_status)]
  let overall_healthy := qdrant_ok && db_ok && (if key_ok then true else false)
  let overall_status :=
    if overall_healthy then "healthy"
    else if services.all (fun s => s.2 == "unavailable") then "unhealthy"
    else "degraded"
  { status := overall_status, services := services }

/-- C9: the health endpoint never reports "unhealthy".  The embedding
entry is always "configured" or "not_configured", never "unavailable",
so the all-unavailable test is unsatisfiable and every combination of
dependency outcomes yields "healthy" or "degraded". -/
theorem C9_health_never_unhealthy :
    ∀ (qdrant_ok db_ok : Bool) (voyage_ai_key : String),
      (health_check qdrant_ok db_ok voyage_ai_key).status ≠ "unhealthy" ∧
      ((health_check qdrant_ok db_ok voyage_ai_key).status = "healthy" ∨
        (health_check qdrant_ok db_ok voyage_ai_key).status = "degraded") := by
  intro q d key
  by_cases hk : key ≠ "" ∧ key ≠ "your_voyage_key_here" <;>
    cases q <;> cases d <;>
      simp [health_check, hk]

/-- Witness for C9 at a concrete input (both probes down, placeholder
key). -/
theorem C9_health_never_unhealthy_witness :
    (health_check false false "your_voyage_key_here").status ≠ "unhealthy" ∧
    ((health_check false false "your_voyage_key_here").status = "healthy" ∨
      (health_check false false "your_voyage_key_here").status = "degraded") :=
  C9_health_never_unhealthy false false "your_voyage_key_here"

/-! ## Workflow structural validator (app/utils/validators.py)

`validate_workflow_structure` receives a parsed JSON document.  The
embedding types the document at the shape the §3 invariants and the
claims quantify over: a node is an object whose "id" and "type" keys
may be absent (hence `Option`), and a connection value is either a bare
string, an object with a "next" key holding a string or a list of
strings, or an object without "next".  The Python `isinstance` guards
on `nodes`/`connections` are discharged by this typing.

Python raises `TypeError` when an unhashable value is tested for set
membership; `target_id not in node_ids` with a list-valued `next` is
exactly that case, embedded below as the `Except.error` outcome. -/

structure WFNode where
  id : Option String
  type : Option String
deriving DecidableEq, Repr

inductive ConnDesc where
  | strTarget : String → ConnDesc
  | objNextStr : String → ConnDesc
  | objNextList : List String → ConnDesc
  | objNoNext : ConnDesc
deriving DecidableEq, Repr

structure Workflow where
  nodes : Option (List WFNode)
  connections : Option (List (String × ConnDesc))
deriving DecidableEq, Repr

/-- The per-node loop of `validate_workflow_structure`
(`validators.py:62-79`): checks "id" and "type" presence, duplicate
ids (against the ids collected so far), and the `.`-separator format,
returning either an early invalid verdict or the collected node ids. -/
def validateNodesLoop : Nat → List String → List WFNode →
    Sum (Bool × Option String) (List String)
  | _, node_ids, [] => Sum.inr node_ids
  | i, node_ids, node :: rest =>
    match node.id with
    | none => Sum.inl (false, some ("Node at index " ++ toString i ++ " missing 'id'"))
    | some node_id =>
      match node.type with
      | none => Sum.inl (false, some ("Node at index " ++ toString i ++ " missing 'type'"))
      | some node_type =>
        if node_id ∈ node_ids then
          Sum.inl (false, some ("Duplicate node ID: " ++ node_id))
        else
          let node_ids := node_ids ++ [node_id]
          if ¬ node_type.data.contains '.' then
            Sum.inl (false, some ("Node '" ++ node_id ++
              "' has invalid type format (expected 'tool.operation')"))
          else
            validateNodesLoop (i + 1) node_ids rest

/-- The connections loop of `validate_workflow_structure`
(`validators.py:86-95`): each source key must be a known node id; for a
dict value with a "next" key the target is tested for membership in
the node-id set — a string target is checked, a list target makes the
membership test raise `TypeError` (lists are unhashable). -/
def validateConnsLoop (node_ids : List String) :
    List (String × ConnDesc) → Except String (Bool × Option String)
  | [] => Except.ok (true, none)
  | (source_id, conn) :: rest =>
    if source_id ∉ node_ids then
      Except.ok (false, some ("Connection references unknown source node: " ++ source_id))
    else
      match conn with
      | ConnDesc.strTarget _ => validateConnsLoop node_ids rest
      | ConnDesc.objNoNext => validateConnsLoop node_ids rest
      | ConnDesc.objNextStr target_id =>
        if target_id ∉ node_ids then
          Except.ok (false, some ("Connection references unknown target node: " ++ target_id))
        else validateConnsLoop node_ids rest
      | ConnDesc.objNextList _ => Except.error "TypeError: unhashable type: 'list'"

/-- `validate_workflow_structure` (`validators.py:37-97`).  Checks in
source order: "nodes" present, "connections" present, nodes non-empty,
then the per-node loop, then the connections loop.  `Except.ok (valid,
message)` is the Python return pair; `Except.error` is an uncaught
Python exception. -/
def validate_workflow_structure (workflow : Workflow) : Except String (Bool × Option String) :=
  match workflow.nodes with
  | none => Except.ok (false, some "Missing 'nodes' array")
  | some nodes =>
    match workflow.connections with
    | none => Except.ok (false, some "Missing 'connections' object")
    | some connections =>
      if nodes.length = 0 then
        Except.ok (false, some "Workflow must have at least one node")
      else
        match validateNodesLoop 0 [] nodes with
        | Sum.inl verdict => Except.ok verdict
        | Sum.inr node_ids => validateConnsLoop node_ids connections


instance {ε α : Type} [DecidableEq ε] [DecidableEq α] : DecidableEq (Except ε α) :=
  fun x y =>
    match x, y with
    | Except.ok a, Except.ok b =>
      if h : a = b then isTrue (by rw [h]) else isFalse (fun hc => h (Except.ok.inj hc))
    | Except.error e, Except.error f =>
      if h : e = f then isTrue (by rw [h]) else isFalse (fun hc => h (Except.error.inj hc))
    | Except.ok _, Except.error _ => isFalse (fun hc => Except.noConfusion hc)
    | Except.error _, Except.ok _ => isFalse (fun hc => Except.noConfusion hc)

/-- Decidable form of "this connection's `next` target, when it is a
single string, names a known node id". -/
def connNextTargetOk (node_ids : List String) : ConnDesc → Bool
  | ConnDesc.objNextStr t => node_ids.contains t
  | _ => true

/-- Decidable form of "this connection's value is an object with a
list-valued `next`". -/
def connIsListNext : ConnDesc → Bool
  | ConnDesc.objNextList _ => true
  | _ => false

/-- Decidable form of "every element of this connection's list-valued
`next` names a known node id" (trivially true for the other shapes). -/
def connListTargetsOk (node_ids : List String) : ConnDesc → Bool
  | ConnDesc.objNextList l => l.all (fun t => node_ids.contains t)
  | _ => true

/-- Helper: run of the node loop on well-formed nodes.  If every node
carries an id and a dotted type, and the accumulated ids plus the node
ids are duplicate-free, the loop succeeds with the collected ids. -/
theorem validateNodesLoop_ok :
    ∀ (nodes : List WFNode) (i : Nat) (acc : List String),
      (∀ n ∈ nodes, ∃ nid nty, n.id = some nid ∧ n.type = some nty ∧
        nty.data.contains '.' = true) →
      (acc ++ nodes.filterMap WFNode.id).Nodup →
      validateNodesLoop i acc nodes = Sum.inr (acc ++ nodes.filterMap WFNode.id) := by
  intro nodes
  induction nodes with
  | nil => intro i acc _ _; simp [validateNodesLoop]
  | cons node rest ih =>
    intro i acc hwf hnodup
    obtain ⟨nid, nty, hid, hty, hdot⟩ := hwf node (List.mem_cons_self _ _)
    have hfm : (node :: rest).filterMap WFNode.id = nid :: rest.filterMap WFNode.id := by
      simp [hid]
    rw [hfm] at hnodup ⊢
    have hnotmem : nid ∉ acc := by
      rw [List.nodup_append] at hnodup
      exact fun hmem => hnodup.2.2 hmem (List.mem_cons_self _ _)
    have hnodup' : ((acc ++ [nid]) ++ rest.filterMap WFNode.id).Nodup := by
      simpa [List.append_assoc] using hnodup
    have hdot' : ¬ ¬ nty.data.contains '.' = true := fun hc => hc hdot
    have hrec := ih (i + 1) (acc ++ [nid])
      (fun n hn => hwf n (List.mem_cons_of_mem _ hn)) hnodup'
    simp only [validateNodesLoop, hid, hty, if_neg hnotmem, if_neg hdot', hrec]
    simp [List.append_assoc]

/-- Helper: run of the connections loop.  If every source key is a
known node id, every string-valued `next` target is a known node id,
and no `next` is list-valued, the loop returns the valid verdict. -/
theorem validateConnsLoop_ok :
    ∀ (conns : List (String × ConnDesc)) (node_ids : List String),
      (∀ p ∈ conns, p.1 ∈ node_ids) →
      (∀ p ∈ conns, connNextTargetOk node_ids p.2 = true) →
      (∀ p ∈ conns, connIsListNext p.2 = false) →
      validateConnsLoop node_ids conns = Except.ok (true, none) := by
  intro conns
  induction conns with
  | nil => intro node_ids _ _ _; rfl
  | cons p rest ih =>
    intro node_ids hsrc htgt hnolist
    have hs : p.1 ∈ node_ids := hsrc p (List.mem_cons_self _ _)
    have hs' : ¬ p.1 ∉ node_ids := fun hc => hc hs
    have ihrest := ih node_ids
      (fun q hq => hsrc q (List.mem_cons_of_mem _ hq))
      (fun q hq => htgt q (List.mem_cons_of_mem _ hq))
      (fun q hq => hnolist q (List.mem_cons_of_mem _ hq))
    obtain ⟨s, c⟩ := p
    cases c with
    | strTarget t => simpa [validateConnsLoop, hs'] using ihrest
    | objNoNext => simpa [validateConnsLoop, hs'] using ihrest
    | objNextStr t =>
      have ht : t ∈ node_ids := by
        have := htgt (s, ConnDesc.objNextStr t) (List.mem_cons_self _ _)
        simpa [connNextTargetOk] using this
      have ht' : ¬ t ∉ node_ids := fun hc => hc ht
      simpa [validateConnsLoop, hs', ht'] using ihrest
    | objNextList l =>
      have := hnolist (s, ConnDesc.objNextList l) (List.mem_cons_self _ _)
      simp [connIsListNext] at this

/-- C2 (amended): a workflow document with non-empty nodes each
carrying a unique id and a dotted type, every connection source naming
an existing node id, every string-valued `next` target naming an
existing node id, and — the amendment — no list-valued `next`,
validates as `(true, none)` with no error message; a document that has
nodes but no connections key is invalid with a message naming the
missing field.  The claim as frozen also admits list-valued `next`
whose elements name existing node ids, but on such a document the
source raises `TypeError` (see `C2_counterexample_list_next`), which
is the only change the amendment makes. -/
theorem C2_validate_workflow_structure :
    (∀ (w : Workflow) (nodes : List WFNode) (conns : List (String × ConnDesc)),
      w.nodes = some nodes → w.connections = some conns →
      nodes ≠ [] →
      (∀ n ∈ nodes, ∃ nid nty, n.id = some nid ∧ n.type = some nty ∧
        nty.data.contains '.' = true) →
      (nodes.filterMap WFNode.id).Nodup →
      (∀ p ∈ conns, p.1 ∈ nodes.filterMap WFNode.id) →
      (∀ p ∈ conns, connNextTargetOk (nodes.filterMap WFNode.id) p.2 = true) →
      (∀ p ∈ conns, connIsListNext p.2 = false) →
      validate_workflow_structure w = Except.ok (true, none)) ∧
    (∀ (w : Workflow) (nodes : List WFNode),
      w.nodes = some nodes → w.connections = none →
      validate_workflow_structure w =
        Except.ok (false, some "Missing 'connections' object")) := by
  constructor
  · intro w nodes conns hnodes hconns hne hwf hnodup hsrc htgt hnolist
    have hlen : ¬ nodes.length = 0 := by
      cases nodes with
      | nil => exact absurd rfl hne
      | cons a l => simp
    have hloop := validateNodesLoop_ok nodes 0 [] hwf (by simpa using hnodup)
    simp only [validate_workflow_structure, hnodes, hconns, if_neg hlen, hloop]
    exact validateConnsLoop_ok conns _ (by simpa using hsrc) (by simpa using htgt) hnolist
  · intro w nodes hn hc
    simp [validate_workflow_structure, hn, hc]

/-- A workflow using a list-valued `next` whose every element is an
existing node id; it satisfies the §3 node/connection invariants. -/
def wfListNext : Workflow :=
  { nodes := some [{ id := some "a", type := some "x.y" },
                   { id := some "b", type := some "x.z" }]
    connections := some [("a", ConnDesc.objNextList ["b"])] }

/-- Counterexample for C2 as frozen: `wfListNext` satisfies every §3
node/connection invariant (non-empty nodes with unique ids and dotted
types, the connection key "a" is a node id, and the single `next`
list's element "b" is a node id), yet `validate_workflow_structure`
does not return valid with no error — the membership test applied to
the list-valued `next` raises `TypeError`. -/
theorem C2_counterexample_list_next :
    (∃ nodes, wfListNext.nodes = some nodes ∧ nodes ≠ [] ∧
      (∀ n ∈ nodes, ∃ nid nty, n.id = some nid ∧ n.type = some nty ∧
        nty.data.contains '.' = true) ∧
      (nodes.filterMap WFNode.id).Nodup ∧
      (∃ conns, wfListNext.connections = some conns ∧
        (∀ p ∈ conns, p.1 ∈ nodes.filterMap WFNode.id) ∧
        (∀ p ∈ conns, connListTargetsOk (nodes.filterMap WFNode.id) p.2 = true))) ∧
    validate_workflow_structure wfListNext ≠ Except.ok (true, none) ∧
    validate_workflow_structure wfListNext =
      Except.error "TypeError: unhashable type: 'list'" := by
  refine ⟨⟨_, rfl, by decide, ?_, by decide, _, rfl, by decide, by decide⟩,
    by decide, by decide⟩
  intro n hn
  fin_cases hn
  · exact ⟨"a", "x.y", rfl, rfl, by decide⟩
  · exact ⟨"b", "x.z", rfl, rfl, by decide⟩

/-- A fully well-formed workflow with only singular `next` targets. -/
def wfGood : Workflow :=
  { nodes := some [{ id := some "a", type := some "gmail.send-email" },
                   { id := some "b", type := some "slack.post-message" }]
    connections := some [("a", ConnDesc.objNextStr "b"), ("b", ConnDesc.strTarget "a")] }

/-- A workflow with nodes but no connections key. -/
def wfNoConns : Workflow :=
  { nodes := some [{ id := some "a", type := some "gmail.send-email" }]
    connections := none }

/-- Witness for C2: the amended theorem applied to `wfGood` (valid, no
message) and to `wfNoConns` (invalid, message naming the missing
connections field). -/
theorem C2_validate_workflow_structure_witness :
    validate_workflow_structure wfGood = Except.ok (true, none) ∧
    validate_workflow_structure wfNoConns =
      Except.ok (false, some "Missing 'connections' object") := by
  constructor
  · refine C2_validate_workflow_structure.1 wfGood _ _ rfl rfl (by decide) ?_ (by decide)
      (by decide) (by decide) (by decide)
    intro n hn
    fin_cases hn
    · exact ⟨"a", "gmail.send-email", rfl, rfl, by decide⟩
    · exact ⟨"b", "slack.post-message", rfl, rfl, by decide⟩
  · exact C2_validate_workflow_structure.2 wfNoConns _ rfl rfl

/-! ## Embedding service (app/services/embedding_service.py)

`generate_embedding` validates its input, then calls the remote Voyage
provider inside a retry loop.  The provider is embedded as an oracle
from attempt index to outcome: either a raised exception (carrying its
message) or an `embeddings` list.  The observable effects — provider
calls and `time.sleep` pauses — are returned as an event trace, and
Python exceptions as `Except.error`.  Input text is embedded as its
character list so that `len` and `str.strip` are direct. -/

def max_retries : Nat := 3

def base_retry_delay : Nat := 1

def embedding_dimension : Nat := 1024

inductive ProviderResp where
  | raise : String → ProviderResp
  | ok : List (List ℚ) → ProviderResp
deriving DecidableEq, Repr

inductive EmbEvent where
  | callProvider : Nat → EmbEvent
  | sleep : Nat → EmbEvent
deriving DecidableEq, Repr

inductive EmbError where
  | valueError : String → EmbError
  | voyageAIException : String → EmbError
deriving DecidableEq, Repr

/-- Python `str.strip` whitespace set (the ASCII part, which covers the
texts the claims quantify over). -/
def pyIsSpace (c : Char) : Bool :=
  c = ' ' || c = '\t' || c = '\n' || c = '\r' || c = '\x0b' || c = '\x0c'

def pyStrip (s : List Char) : List Char :=
  ((s.dropWhile pyIsSpace).reverse.dropWhile pyIsSpace).reverse

/-- One attempt body (`embedding_service.py:56-75`): a raised provider
exception, an empty `embeddings` list, or a first vector of the wrong
length are failures (the two `raise VoyageAIException` inside the `try`
are caught by the same `except`); otherwise the first vector is
returned. -/
def attemptOutcome (dim : Nat) : ProviderResp → Except String (List ℚ)
  | ProviderResp.raise msg => Except.error msg
  | ProviderResp.ok embeddings =>
    match embeddings with
    | [] => Except.error "Empty embedding response"
    | e :: _ =>
      if e.length ≠ dim then
        Except.error ("Invalid embedding dimension: " ++ toString e.length ++
          " (expected " ++ toString dim ++ ")")
      else Except.ok e

/-- The `for attempt in range(max_retries)` loop
(`embedding_service.py:54-88`), structurally recursing on the number of
remaining attempts (`remaining = max_retries - attempt` at entry).  On
a failed non-final attempt it sleeps `base_retry_delay * 2 ^ attempt`
seconds and retries; on the final attempt it raises the
`VoyageAIException` naming the attempt count.  The `remaining = 0`
base case is unreachable from `generate_embedding` (it models
`range(0)` falling through, returning Python `None`). -/
def embedRetryLoop (dim : Nat) (provider : Nat → ProviderResp) :
    Nat → Nat → (Except EmbError (List ℚ)) × List EmbEvent
  | _, 0 => (Except.error (EmbError.voyageAIException "range exhausted"), [])
  | attempt, remaining + 1 =>
    match attemptOutcome dim (provider attempt) with
    | Except.ok e => (Except.ok e, [EmbEvent.callProvider attempt])
    | Except.error msg =>
      if remaining = 0 then
        (Except.error (EmbError.voyageAIException
            ("Embedding generation failed after " ++ toString max_retries ++
              " attempts: " ++ msg)),
          [EmbEvent.callProvider attempt])
      else
        let wait_time := base_retry_delay * 2 ^ attempt
        let rest := embedRetryLoop dim provider (attempt + 1) remaining
        (rest.1, EmbEvent.callProvider attempt :: EmbEvent.sleep wait_time :: rest.2)

/-- `generate_embedding` (`embedding_service.py:27-88`): rejects empty
or whitespace-only text, then text above 8000 characters (message
stating the actual and maximum lengths), then runs the retry loop. -/
def generate_embedding (dim : Nat) (text : List Char) (provider : Nat → ProviderResp) :
    (Except EmbError (List ℚ)) × List EmbEvent :=
  if text = [] ∨ pyStrip text = [] then
    (Except.error (EmbError.valueError "Text cannot be empty"), [])
  else if text.length > 8000 then
    (Except.error (EmbError.valueError ("Text too long: " ++ toString text.length ++
      " characters (max 8000)")), [])
  else
    embedRetryLoop dim provider 0 max_retries

/-- C4: `generate_embedding` raises `ValueError` with an empty event
trace (so the provider is never called) for empty/whitespace-only text
and for text longer than 8000 characters (message naming the actual
length and the 8000 maximum); and when all three provider attempts
fail, the trace is call 0, sleep 1s, call 1, sleep 2s, call 2, and the
outcome is a `VoyageAIException` naming the 3-attempt count and
wrapping the final failure — never a returned vector. -/
theorem C4_generate_embedding_errors :
    (∀ (dim : Nat) (text : List Char) (provider : Nat → ProviderResp),
      text = [] ∨ pyStrip text = [] →
      generate_embedding dim text provider =
        (Except.error (EmbError.valueError "Text cannot be empty"), [])) ∧
    (∀ (dim : Nat) (text : List Char) (provider : Nat → ProviderResp),
      pyStrip text ≠ [] → text.length > 8000 →
      generate_embedding dim text provider =
        (Except.error (EmbError.valueError ("Text too long: " ++ toString text.length ++
          " characters (max 8000)")), [])) ∧
    (∀ (dim : Nat) (text : List Char) (provider : Nat → ProviderResp),
      pyStrip text ≠ [] → ¬ text.length > 8000 →
      (∀ i, i < max_retries → ∃ msg, attemptOutcome dim (provider i) = Except.error msg) →
      ∃ lastMsg, attemptOutcome dim (provider (max_retries - 1)) = Except.error lastMsg ∧
        generate_embedding dim text provider =
          (Except.error (EmbError.voyageAIException
              ("Embedding generation failed after " ++ toString max_retries ++
                " attempts: " ++ lastMsg)),
            [EmbEvent.callProvider 0, EmbEvent.sleep 1,
              EmbEvent.callProvider 1, EmbEvent.sleep 2, EmbEvent.callProvider 2])) := by
  refine ⟨?_, ?_, ?_⟩
  · intro dim text provider h
    simp [generate_embedding, h]
  · intro dim text provider hstrip hlen
    have hne : ¬ (text = [] ∨ pyStrip text = []) := by
      rintro (rfl | h)
      · exact hstrip (by rfl)
      · exact hstrip h
    simp [generate_embedding, hne, hlen]
  · intro dim text provider hstrip hlen hfail
    have hne : ¬ (text = [] ∨ pyStrip text = []) := by
      rintro (rfl | h)
      · exact hstrip (by rfl)
      · exact hstrip h
    obtain ⟨m0, hm0⟩ := hfail 0 (by decide)
    obtain ⟨m1, hm1⟩ := hfail 1 (by decide)
    obtain ⟨m2, hm2⟩ := hfail 2 (by decide)
    refine ⟨m2, hm2, ?_⟩
    simp only [generate_embedding, if_neg hne, if_neg hlen]
    simp [max_retries, embedRetryLoop, base_retry_delay, hm0, hm1, hm2]

/-- Dropping the strip whitespace from a replicated 'a' removes
nothing. -/
theorem dropWhile_pyIsSpace_replicate_a (n : Nat) :
    List.dropWhile pyIsSpace (List.replicate n 'a') = List.replicate n 'a' := by
  cases n with
  | zero => rfl
  | succ m =>
    rw [List.replicate_succ, List.dropWhile_cons]
    simp [pyIsSpace]

/-- `pyStrip` of a replicated 'a' is itself. -/
theorem pyStrip_replicate_a (n : Nat) :
    pyStrip (List.replicate n 'a') = List.replicate n 'a' := by
  unfold pyStrip
  rw [dropWhile_pyIsSpace_replicate_a, List.reverse_replicate,
    dropWhile_pyIsSpace_replicate_a, List.reverse_replicate]

/-- Witness for C4: the empty branch at `" "`, the too-long branch at
8001 copies of 'a', and the exhausted-retries branch at `"hi"` with a
provider that raises "Connection error" on every attempt. -/
theorem C4_generate_embedding_errors_witness :
    generate_embedding embedding_dimension [' '] (fun _ => ProviderResp.ok []) =
      (Except.error (EmbError.valueError "Text cannot be empty"), []) ∧
    generate_embedding embedding_dimension (List.replicate 8001 'a')
        (fun _ => ProviderResp.ok []) =
      (Except.error (EmbError.valueError
        ("Text too long: " ++ toString (List.replicate 8001 'a').length ++
          " characters (max 8000)")), []) ∧
    (∃ lastMsg,
      attemptOutcome embedding_dimension
        ((fun _ => ProviderResp.raise "Connection error") (max_retries - 1)) =
        Except.error lastMsg ∧
      generate_embedding embedding_dimension ['h', 'i']
          (fun _ => ProviderResp.raise "Connection error") =
        (Except.error (EmbError.voyageAIException
            ("Embedding generation failed after " ++ toString max_retries ++
              " attempts: " ++ lastMsg)),
          [EmbEvent.callProvider 0, EmbEvent.sleep 1,
            EmbEvent.callProvider 1, EmbEvent.sleep 2, EmbEvent.callProvider 2])) := by
  refine ⟨?_, ?_, ?_⟩
  · exact C4_generate_embedding_errors.1 _ _ _ (Or.inr (by decide))
  · refine C4_generate_embedding_errors.2.1 embedding_dimension
      (List.replicate 8001 'a') (fun _ => ProviderResp.ok []) ?_ ?_
    · rw [pyStrip_replicate_a]
      apply List.ne_nil_of_length_pos
      rw [List.length_replicate]
      norm_num
    · rw [List.length_replicate]
      norm_num
  · exact C4_generate_embedding_errors.2.2 embedding_dimension ['h', 'i']
      (fun _ => ProviderResp.raise "Connection error") (by decide) (by decide)
      (fun i _ => ⟨"Connection error", rfl⟩)

/-! ## Conversation/workflow domain service
(app/services/conversation_service.py, app/models/*)

The three SQLAlchemy tables are embedded as lists of rows in insertion
order; `query(...).filter(...).first()` is `List.find?`, a mutation of
the returned ORM row is an update of the first matching row in place
(`updateFirst`), and `datetime.utcnow()` is an explicit `now : Nat`
argument.  Python exceptions raised by a service method are the
`Except.error` side of its result; a method's state effect is the `DB`
component it returns (an exception raised before any mutation leaves
the `DB` unchanged). -/

structure ConversationRow where
  id : String
  summary : Option String
  last_summarized_at : Option Nat
  user_id : Option String
  is_deleted : Bool
  created_at : Nat
  updated_at : Nat
deriving DecidableEq, Repr

structure MessageRow where
  conversation_id : String
  role : String
  content : String
  timestamp : Nat
deriving DecidableEq, Repr

structure WorkflowRow where
  conversation_id : String
  workflow_json : Workflow
  version : Nat
  created_at : Nat
  updated_at : Nat
deriving DecidableEq, Repr

structure DB where
  conversations : List ConversationRow
  messages : List MessageRow
  workflow_states : List WorkflowRow
deriving DecidableEq, Repr

/-- Replace the first list element satisfying `p` by its image under
`f` (the effect of mutating the single ORM row returned by
`.first()`). -/
def updateFirst {α : Type} (p : α → Bool) (f : α → α) : List α → List α
  | [] => []
  | x :: xs => if p x then f x :: xs else x :: updateFirst p f xs

/-- `get_conversation` (`conversation_service.py:49-62`): first row
with the given id that is not soft-deleted. -/
def get_conversation (db : DB) (conversation_id : String) : Option ConversationRow :=
  db.conversations.find? (fun c => c.id == conversation_id && !c.is_deleted)

/-- `save_workflow` (`conversation_service.py:158-194`): if a
`WorkflowState` row for the conversation exists, overwrite its
document, bump its version by 1 and refresh its `updated_at`;
otherwise insert a fresh row, whose `version` column default is 1
(`workflow.py:24`).  Returns the new state alongside the new `DB`. -/
def save_workflow (db : DB) (conversation_id : String) (workflow_json : Workflow)
    (now : Nat) : DB × WorkflowRow :=
  match db.workflow_states.find? (fun ws => ws.conversation_id == conversation_id) with
  | some ws =>
    let ws' := { ws with
      workflow_json := workflow_json
      version := ws.version + 1
      updated_at := now }
    let states := updateFirst (fun w => w.conversation_id == conversation_id)
      (fun w => { w with
        workflow_json := workflow_json
        version := w.version + 1
        updated_at := now })
      db.workflow_states
    ({ db with workflow_states := states }, ws')
  | none =>
    let ws' : WorkflowRow := { conversation_id := conversation_id
                               workflow_json := workflow_json
                               version := 1
                               created_at := now
                               updated_at := now }
    ({ db with workflow_states := db.workflow_states ++ [ws'] }, ws')

/-- `get_current_workflow` (`conversation_service.py:196-213`). -/
def get_current_workflow (db : DB) (conversation_id : String) : Option Workflow :=
  (db.workflow_states.find? (fun ws => ws.conversation_id == conversation_id)).map
    (fun ws => ws.workflow_json)

/-- Total messages of a conversation
(`conversation_service.py:249-251`). -/
def message_count (db : DB) (conversation_id : String) : Nat :=
  (db.messages.filter (fun m => m.conversation_id == conversation_id)).length

/-- Messages strictly later than a timestamp
(`conversation_service.py:265-268`). -/
def messages_since (db : DB) (conversation_id : String) (ts : Nat) : Nat :=
  (db.messages.filter (fun m =>
    m.conversation_id == conversation_id && decide (ts < m.timestamp))).length

/-- `_check_summarization_needed` (`conversation_service.py:236-273`):
true only when more than 10 messages exist and either the conversation
was never summarized or at least 5 messages are newer than
`last_summarized_at`.  When the count exceeds 10 but `get_conversation`
finds nothing (absent or soft-deleted), the attribute access on `None`
raises — embedded as the error case. -/
def check_summarization_needed (db : DB) (conversation_id : String) : Except String Bool :=
  let total_messages := message_count db conversation_id
  let conversation := get_conversation db conversation_id
  if total_messages > 10 then
    match conversation with
    | none => Except.error "AttributeError: NoneType object has no attribute"
    | some c =>
      match c.last_summarized_at with
      | none => Except.ok true
      | some ts =>
        if messages_since db conversation_id ts ≥ 5 then Except.ok true
        else Except.ok false
  else Except.ok false

/-- `save_message` (`conversation_service.py:110-156`): raises
not-found when `get_conversation` yields nothing (the id is unknown or
the conversation is soft-deleted) with no rows touched; otherwise
validates the role against the `MessageRole` enum, inserts the message
row, refreshes the conversation's `updated_at`, commits, then runs the
summarization check (whose result is discarded, but an exception from
it would propagate). -/
def save_message (db : DB) (conversation_id : String) (role : String) (content : String)
    (now : Nat) : DB × Except String MessageRow :=
  match get_conversation db conversation_id with
  | none => (db, Except.error ("Conversation not found: " ++ conversation_id))
  | some _ =>
    if role ≠ "user" ∧ role ≠ "assistant" then
      (db, Except.error ("'" ++ role ++ "' is not a valid MessageRole"))
    else
      let message : MessageRow := { conversation_id := conversation_id
                                    role := role
                                    content := content
                                    timestamp := now }
      let convs := updateFirst (fun c => c.id == conversation_id && !c.is_deleted)
        (fun c => { c with updated_at := now }) db.conversations
      let db' : DB := { db with
        messages := db.messages ++ [message]
        conversations := convs }
      match check_summarization_needed db' conversation_id with
      | Except.error e => (db', Except.error e)
      | Except.ok _ => (db', Except.ok message)

/-- `delete_conversation` (`conversation_service.py:311-329`): soft
delete.  Not-found (including already-deleted) returns `false` and
changes nothing; otherwise the found row's `is_deleted` flag is set,
its `updated_at` refreshed, and `true` is returned. -/
def delete_conversation (db : DB) (conversation_id : String) (now : Nat) : DB × Bool :=
  match get_conversation db conversation_id with
  | none => (db, false)
  | some _ =>
    let convs := updateFirst (fun c => c.id == conversation_id && !c.is_deleted)
      (fun c => { c with is_deleted := true, updated_at := now })
      db.conversations
    ({ db with conversations := convs }, true)

/-! Generic list facts about `find?`, `filter` and `updateFirst`, used
to track the single row a conversation owns in a table. -/

theorem find?_eq_none_of_filter_eq_nil {α : Type} (p : α → Bool) (l : List α)
    (h : l.filter p = []) : l.find? p = none := by
  rw [List.find?_eq_none]
  intro x hx
  have := List.filter_eq_nil_iff.mp h x hx
  simpa using this

theorem find?_eq_some_of_filter_eq_singleton {α : Type} (p : α → Bool) :
    ∀ (l : List α) (x : α), l.filter p = [x] → l.find? p = some x := by
  intro l
  induction l with
  | nil => intro x h; simp at h
  | cons a t ih =>
    intro x h
    by_cases hp : p a
    · rw [List.filter_cons_of_pos hp] at h
      obtain ⟨rfl, -⟩ := List.cons_eq_cons.mp h
      simp [List.find?_cons, hp]
    · rw [List.filter_cons_of_neg hp] at h
      simpa [List.find?_cons, hp] using ih x h

theorem length_updateFirst {α : Type} (p : α → Bool) (f : α → α) :
    ∀ l : List α, (updateFirst p f l).length = l.length := by
  intro l
  induction l with
  | nil => rfl
  | cons a t ih =>
    by_cases hp : p a <;> simp [updateFirst, hp, ih]

theorem filter_updateFirst_singleton {α : Type} (p : α → Bool) (f : α → α)
    (hpf : ∀ x, p x = true → p (f x) = true) :
    ∀ (l : List α) (x : α), l.filter p = [x] →
      (updateFirst p f l).filter p = [f x] := by
  intro l
  induction l with
  | nil => intro x h; simp at h
  | cons a t ih =>
    intro x h
    by_cases hp : p a
    · rw [List.filter_cons_of_pos hp] at h
      obtain ⟨rfl, ht⟩ := List.cons_eq_cons.mp h
      simp [updateFirst, hp, List.filter_cons_of_pos (hpf a hp), ht]
    · rw [List.filter_cons_of_neg hp] at h
      simp [updateFirst, hp, List.filter_cons_of_neg hp, ih x h]

theorem mem_updateFirst_of_find? {α : Type} (p : α → Bool) (f : α → α) :
    ∀ (l : List α) (c : α), l.find? p = some c → f c ∈ updateFirst p f l := by
  intro l
  induction l with
  | nil => intro c h; simp at h
  | cons a t ih =>
    intro c h
    by_cases hp : p a
    · rw [List.find?_cons_of_pos t hp] at h
      obtain rfl := Option.some.inj h
      simp [updateFirst, hp]
    · rw [List.find?_cons_of_neg t hp] at h
      simp only [updateFirst, if_neg hp]
      exact List.mem_cons_of_mem _ (ih c h)

/-- A sequence of `save_workflow` calls against one conversation,
threading the database; each element carries the document and the
`datetime.utcnow()` of that call. -/
def save_workflow_seq (db : DB) (conversation_id : String) :
    List (Workflow × Nat) → DB
  | [] => db
  | (wf, now) :: rest =>
    save_workflow_seq (save_workflow db conversation_id wf now).1 conversation_id rest

theorem foldl_pick_getLast {β : Type} :
    ∀ (l : List (Workflow × β)) (hne : l ≠ []) (d : Workflow),
      l.foldl (fun _ q => q.1) d = (l.getLast hne).1 := by
  intro l
  induction l with
  | nil => intro hne; exact absurd rfl hne
  | cons a t ih =>
    intro hne d
    cases t with
    | nil => rfl
    | cons b u =>
      rw [List.foldl_cons, ih (List.cons_ne_nil b u)]
      exact congrArg Prod.fst (List.getLast_cons (List.cons_ne_nil b u)).symm

/-- The single-step effect of `save_workflow` on the conversation's
(unique) `WorkflowState` row: a fresh conversation gets a version-1
row holding the document; an existing row has its document replaced
and its version bumped by exactly 1. -/
theorem save_workflow_step :
    (∀ (db : DB) (cid : String) (wf : Workflow) (now : Nat),
      db.workflow_states.filter (fun w => w.conversation_id == cid) = [] →
      (save_workflow db cid wf now).2.version = 1 ∧
      (save_workflow db cid wf now).2.workflow_json = wf ∧
      (save_workflow db cid wf now).1.workflow_states.filter
          (fun w => w.conversation_id == cid) = [(save_workflow db cid wf now).2] ∧
      (save_workflow db cid wf now).1.messages = db.messages ∧
      (save_workflow db cid wf now).1.conversations = db.conversations) ∧
    (∀ (db : DB) (cid : String) (wf : Workflow) (now : Nat) (ws : WorkflowRow),
      db.workflow_states.filter (fun w => w.conversation_id == cid) = [ws] →
      (save_workflow db cid wf now).2.version = ws.version + 1 ∧
      (save_workflow db cid wf now).2.workflow_json = wf ∧
      (save_workflow db cid wf now).1.workflow_states.filter
          (fun w => w.conversation_id == cid) = [(save_workflow db cid wf now).2] ∧
      (save_workflow db cid wf now).1.messages = db.messages ∧
      (save_workflow db cid wf now).1.conversations = db.conversations) := by
  constructor
  · intro db cid wf now hfresh
    have hfind := find?_eq_none_of_filter_eq_nil _ _ hfresh
    have hstep : save_workflow db cid wf now =
        ({ db with workflow_states := db.workflow_states ++
            [{ conversation_id := cid, workflow_json := wf, version := 1,
               created_at := now, updated_at := now }] },
          { conversation_id := cid, workflow_json := wf, version := 1,
            created_at := now, updated_at := now }) := by
      simp only [save_workflow, hfind]
    rw [hstep]
    refine ⟨rfl, rfl, ?_, rfl, rfl⟩
    rw [List.filter_append, hfresh]
    simp
  · intro db cid wf now ws hone
    have hfind := find?_eq_some_of_filter_eq_singleton _ _ _ hone
    have hs1 : (save_workflow db cid wf now).2 =
        { ws with workflow_json := wf, version := ws.version + 1, updated_at := now } := by
      simp only [save_workflow, hfind]
    have hs2 : (save_workflow db cid wf now).1.workflow_states =
        updateFirst (fun w => w.conversation_id == cid)
          (fun w => { w with workflow_json := wf, version := w.version + 1, updated_at := now })
          db.workflow_states := by
      simp only [save_workflow, hfind]
    have hs3 : (save_workflow db cid wf now).1.messages = db.messages := by
      simp only [save_workflow, hfind]
    have hs4 : (save_workflow db cid wf now).1.conversations = db.conversations := by
      simp only [save_workflow, hfind]
    refine ⟨?_, ?_, ?_, hs3, hs4⟩
    · rw [hs1]
    · rw [hs1]
    · rw [hs2, hs1]
      exact filter_updateFirst_singleton _ _ (fun x hx => by simpa using hx) _ _ hone

/-- Invariant carried through a save sequence: starting from a state
whose unique row has version `v` and some document, after `saves`
further saves the unique row has version `v + saves.length` and holds
the last document saved. -/
theorem save_workflow_seq_invariant :
    ∀ (saves : List (Workflow × Nat)) (db : DB) (cid : String) (ws : WorkflowRow),
      db.workflow_states.filter (fun w => w.conversation_id == cid) = [ws] →
      ∃ ws', (save_workflow_seq db cid saves).workflow_states.filter
          (fun w => w.conversation_id == cid) = [ws'] ∧
        ws'.version = ws.version + saves.length ∧
        ws'.workflow_json = saves.foldl (fun _ q => q.1) ws.workflow_json := by
  intro saves
  induction saves with
  | nil => intro db cid ws h; exact ⟨ws, h, rfl, rfl⟩
  | cons a rest ih =>
    intro db cid ws h
    obtain ⟨wf, now⟩ := a
    obtain ⟨hv, hj, hfilter, -, -⟩ := save_workflow_step.2 db cid wf now ws h
    obtain ⟨ws', hfil', hv', hj'⟩ := ih (save_workflow db cid wf now).1 cid _ hfilter
    refine ⟨ws', hfil', ?_, ?_⟩
    · rw [hv', hv]
      simp [Nat.add_assoc, Nat.add_comm 1 rest.length]
    · rw [hj', hj]
      rfl

/-- C5: workflow versioning.  On a conversation with no stored
workflow, the first `save_workflow` creates the row at version 1 with
the saved document; on a conversation with exactly one stored row,
`save_workflow` replaces the document wholesale and bumps the version
by exactly 1; and after a non-empty sequence of `n` saves starting
from no stored workflow, the unique row has version `n` and
`get_current_workflow` returns the document of the last save. -/
theorem C5_workflow_versioning :
    (∀ (db : DB) (cid : String) (wf : Workflow) (now : Nat),
      db.workflow_states.filter (fun w => w.conversation_id == cid) = [] →
      (save_workflow db cid wf now).2.version = 1 ∧
      (save_workflow db cid wf now).2.workflow_json = wf ∧
      (save_workflow db cid wf now).1.workflow_states.filter
          (fun w => w.conversation_id == cid) = [(save_workflow db cid wf now).2]) ∧
    (∀ (db : DB) (cid : String) (wf : Workflow) (now : Nat) (ws : WorkflowRow),
      db.workflow_states.filter (fun w => w.conversation_id == cid) = [ws] →
      (save_workflow db cid wf now).2.version = ws.version + 1 ∧
      (save_workflow db cid wf now).2.workflow_json = wf ∧
      (save_workflow db cid wf now).1.workflow_states.filter
          (fun w => w.conversation_id == cid) = [(save_workflow db cid wf now).2]) ∧
    (∀ (db : DB) (cid : String) (saves : List (Workflow × Nat)) (hne : saves ≠ []),
      db.workflow_states.filter (fun w => w.conversation_id == cid) = [] →
      ∃ ws', (save_workflow_seq db cid saves).workflow_states.filter
          (fun w => w.conversation_id == cid) = [ws'] ∧
        ws'.version = saves.length ∧
        ws'.workflow_json = (saves.getLast hne).1 ∧
        get_current_workflow (save_workflow_seq db cid saves) cid =
          some (saves.getLast hne).1) := by
  refine ⟨?_, ?_, ?_⟩
  · intro db cid wf now h
    obtain ⟨h1, h2, h3, -, -⟩ := save_workflow_step.1 db cid wf now h
    exact ⟨h1, h2, h3⟩
  · intro db cid wf now ws h
    obtain ⟨h1, h2, h3, -, -⟩ := save_workflow_step.2 db cid wf now ws h
    exact ⟨h1, h2, h3⟩
  · intro db cid saves hne hfresh
    cases saves with
    | nil => exact absurd rfl hne
    | cons a rest =>
      obtain ⟨wf, now⟩ := a
      obtain ⟨hv, hj, hfilter, -, -⟩ := save_workflow_step.1 db cid wf now hfresh
      obtain ⟨ws', hfil', hv', hj'⟩ :=
        save_workflow_seq_invariant rest (save_workflow db cid wf now).1 cid _ hfilter
      refine ⟨ws', hfil', ?_, ?_, ?_⟩
      · rw [hv', hv]
        simp [Nat.add_comm]
      · rw [hj', hj, ← foldl_pick_getLast ((wf, now) :: rest) hne wf, List.foldl_cons]
      · have hfind := find?_eq_some_of_filter_eq_singleton _ _ _ hfil'
        rw [show save_workflow_seq db cid ((wf, now) :: rest) =
          save_workflow_seq (save_workflow db cid wf now).1 cid rest from rfl]
        rw [get_current_workflow, hfind]
        exact congrArg some (by
          show ws'.workflow_json = (((wf, now) :: rest).getLast hne).1
          rw [hj', hj, ← foldl_pick_getLast ((wf, now) :: rest) hne wf, List.foldl_cons])

/-- After soft-deleting the first live row with the given id, no live
row with that id remains (ids are unique — the primary-key invariant
of the conversations table). -/
theorem find?_live_updateFirst_delete (cid : String) (now : Nat) :
    ∀ l : List ConversationRow,
      (l.map ConversationRow.id).Nodup →
      (updateFirst (fun c => c.id == cid && !c.is_deleted)
        (fun c => { c with is_deleted := true, updated_at := now }) l).find?
          (fun c => c.id == cid && !c.is_deleted) = none := by
  intro l
  induction l with
  | nil => intro _; rfl
  | cons a t ih =>
    intro hnodup
    rw [List.map_cons, List.nodup_cons] at hnodup
    by_cases hp : (a.id == cid && !a.is_deleted) = true
    · simp only [updateFirst, if_pos hp]
      rw [List.find?_cons_of_neg t (by simp), List.find?_eq_none]
      intro x hx hpx
      have hxid : x.id = cid ∧ x.is_deleted = false := by simpa using hpx
      have haid : a.id = cid ∧ a.is_deleted = false := by simpa using hp
      exact hnodup.1 (by rw [haid.1, ← hxid.1]; exact List.mem_map_of_mem _ hx)
    · simp only [updateFirst, if_neg hp]
      rw [List.find?_cons_of_neg _ (by simpa using hp)]
      exact ih hnodup.2

/-- C6: soft-delete semantics.  On an id with a live (not soft-deleted)
row, `delete_conversation` returns true, after which `get_conversation`
returns absent for that id, while the messages and workflow tables are
untouched and the conversations table keeps the same number of rows,
among them a row with that id now flagged deleted.  On an id with no
live row, it returns false and changes nothing. -/
theorem C6_soft_delete :
    (∀ (db : DB) (cid : String) (now : Nat) (c : ConversationRow),
      get_conversation db cid = some c →
      (db.conversations.map ConversationRow.id).Nodup →
      (delete_conversation db cid now).2 = true ∧
      get_conversation (delete_conversation db cid now).1 cid = none ∧
      (delete_conversation db cid now).1.messages = db.messages ∧
      (delete_conversation db cid now).1.workflow_states = db.workflow_states ∧
      (delete_conversation db cid now).1.conversations.length =
        db.conversations.length ∧
      (∃ c', c' ∈ (delete_conversation db cid now).1.conversations ∧ c'.id = cid ∧
        c'.is_deleted = true)) ∧
    (∀ (db : DB) (cid : String) (now : Nat),
      get_conversation db cid = none →
      delete_conversation db cid now = (db, false)) := by
  constructor
  · intro db cid now c hc hnodup
    have hd1 : (delete_conversation db cid now).1.conversations =
        updateFirst (fun c => c.id == cid && !c.is_deleted)
          (fun c => { c with is_deleted := true, updated_at := now })
          db.conversations := by
      simp only [delete_conversation, hc]
    have hd2 : (delete_conversation db cid now).2 = true := by
      simp only [delete_conversation, hc]
    have hdm : (delete_conversation db cid now).1.messages = db.messages := by
      simp only [delete_conversation, hc]
    have hdw : (delete_conversation db cid now).1.workflow_states =
        db.workflow_states := by
      simp only [delete_conversation, hc]
    refine ⟨hd2, ?_, hdm, hdw, ?_, ?_⟩
    · rw [get_conversation, hd1]
      exact find?_live_updateFirst_delete cid now db.conversations hnodup
    · rw [hd1]
      exact length_updateFirst _ _ _
    · refine ⟨{ c with is_deleted := true, updated_at := now }, ?_, ?_, rfl⟩
      · rw [hd1]
        have hc' : db.conversations.find? (fun c => c.id == cid && !c.is_deleted) =
            some c := hc
        exact mem_updateFirst_of_find? _ _ _ _ hc'
      · have hc' : db.conversations.find? (fun c => c.id == cid && !c.is_deleted) =
            some c := hc
        have hpc := List.find?_some hc'
        have : c.id = cid ∧ c.is_deleted = false := by simpa using hpc
        exact this.1
  · intro db cid now hc
    simp only [delete_conversation, hc]

/-- C7: the summarization trigger.  For every stored (live)
conversation, `_check_summarization_needed` returns normally, and
returns true exactly when more than 10 messages exist and either the
conversation was never summarized or at least 5 messages carry a
timestamp strictly later than `last_summarized_at`. -/
theorem C7_check_summarization_needed :
    ∀ (db : DB) (cid : String) (c : ConversationRow),
      get_conversation db cid = some c →
      ∃ b, check_summarization_needed db cid = Except.ok b ∧
        (b = true ↔ (message_count db cid > 10 ∧
          (c.last_summarized_at = none ∨
            ∃ ts, c.last_summarized_at = some ts ∧
              messages_since db cid ts ≥ 5))) := by
  intro db cid c hc
  by_cases h10 : message_count db cid > 10
  · cases hls : c.last_summarized_at with
    | none =>
      refine ⟨true, ?_, ?_⟩
      · simp only [check_summarization_needed, hc, if_pos h10, hls]
      · exact iff_of_true rfl ⟨h10, Or.inl rfl⟩
    | some ts =>
      by_cases h5 : messages_since db cid ts ≥ 5
      · refine ⟨true, ?_, ?_⟩
        · simp only [check_summarization_needed, hc, if_pos h10, hls, if_pos h5]
        · exact iff_of_true rfl ⟨h10, Or.inr ⟨ts, rfl, h5⟩⟩
      · refine ⟨false, ?_, ?_⟩
        · simp only [check_summarization_needed, hc, if_pos h10, hls, if_neg h5]
        · refine iff_of_false Bool.false_ne_true ?_
          rintro ⟨-, hor⟩
          rcases hor with hnone | ⟨ts', hts', h5'⟩
          · exact Option.noConfusion hnone
          · obtain rfl := Option.some.inj hts'
            exact h5 h5'
  · refine ⟨false, ?_, ?_⟩
    · simp only [check_summarization_needed, hc, if_neg h10]
    · refine iff_of_false Bool.false_ne_true ?_
      rintro ⟨h10', -⟩
      exact h10 h10'

/-- C10: appending to a soft-deleted conversation.  `save_message`
raises the not-found error and leaves the database untouched whenever
`get_conversation` finds no live row; and a soft-deleted conversation
(a stored row with the id and the deleted flag set, ids unique) is
exactly such a case, so a soft-deleted conversation behaves like a
nonexistent one and its stored message sequence is frozen. -/
theorem C10_save_message_deleted :
    (∀ (db : DB) (cid role content : String) (now : Nat),
      get_conversation db cid = none →
      save_message db cid role content now =
        (db, Except.error ("Conversation not found: " ++ cid))) ∧
    (∀ (db : DB) (cid : String),
      (∃ c, c ∈ db.conversations ∧ c.id = cid ∧ c.is_deleted = true) →
      (db.conversations.map ConversationRow.id).Nodup →
      get_conversation db cid = none) := by
  constructor
  · intro db cid role content now hc
    simp only [save_message, hc]
  · intro db cid hdel hnodup
    obtain ⟨c, hcmem, hcid, hcdel⟩ := hdel
    rw [get_conversation, List.find?_eq_none]
    intro x hx hpx
    have hxid : x.id = cid ∧ x.is_deleted = false := by simpa using hpx
    have hxc : x = c := by
      refine List.inj_on_of_nodup_map hnodup hx hcmem ?_
      rw [hxid.1, hcid]
    rw [hxc, hcdel] at hxid
    exact Bool.noConfusion hxid.2

/-! Concrete database states used by the witnesses. -/

def dbEmpty : DB := { conversations := [], messages := [], workflow_states := [] }

def convNever : ConversationRow :=
  { id := "c1", summary := none, last_summarized_at := none, user_id := none,
    is_deleted := false, created_at := 0, updated_at := 0 }

def convDeletedRow : ConversationRow :=
  { id := "c1", summary := none, last_summarized_at := none, user_id := none,
    is_deleted := true, created_at := 0, updated_at := 2 }

def msgRow (t : Nat) : MessageRow :=
  { conversation_id := "c1", role := "user", content := "q", timestamp := t }

def wfDocA : Workflow :=
  { nodes := some [{ id := some "n1", type := some "gmail.send-email" }]
    connections := some [] }

def wfDocB : Workflow :=
  { nodes := some [{ id := some "n1", type := some "slack.post-message" }]
    connections := some [] }

def wsRowA : WorkflowRow :=
  { conversation_id := "c1", workflow_json := wfDocA, version := 1,
    created_at := 0, updated_at := 0 }

def db11 : DB :=
  { conversations := [convNever], messages := List.replicate 11 (msgRow 1),
    workflow_states := [] }

def db5 : DB :=
  { conversations := [convNever], messages := List.replicate 5 (msgRow 1),
    workflow_states := [] }

def dbC6 : DB :=
  { conversations := [convNever], messages := [msgRow 1], workflow_states := [wsRowA] }

def dbDeleted : DB :=
  { conversations := [convDeletedRow], messages := [msgRow 1], workflow_states := [] }

/-- Witness for C5: on an empty store, one save yields version 1 with
the saved document, and the two-save sequence yields the unique row at
version 2 holding the second document. -/
theorem C5_workflow_versioning_witness :
    ((save_workflow dbEmpty "c1" wfDocA 0).2.version = 1 ∧
      (save_workflow dbEmpty "c1" wfDocA 0).2.workflow_json = wfDocA ∧
      (save_workflow dbEmpty "c1" wfDocA 0).1.workflow_states.filter
        (fun w => w.conversation_id == "c1") = [(save_workflow dbEmpty "c1" wfDocA 0).2]) ∧
    (∃ ws', (save_workflow_seq dbEmpty "c1" [(wfDocA, 0), (wfDocB, 1)]).workflow_states.filter
        (fun w => w.conversation_id == "c1") = [ws'] ∧
      ws'.version = [(wfDocA, 0), (wfDocB, 1)].length ∧
      ws'.workflow_json = ([(wfDocA, 0), (wfDocB, 1)].getLast (by decide)).1 ∧
      get_current_workflow (save_workflow_seq dbEmpty "c1" [(wfDocA, 0), (wfDocB, 1)]) "c1" =
        some ([(wfDocA, 0), (wfDocB, 1)].getLast (by decide)).1) := by
  constructor
  · exact C5_workflow_versioning.1 dbEmpty "c1" wfDocA 0 rfl
  · exact C5_workflow_versioning.2.2 dbEmpty "c1" [(wfDocA, 0), (wfDocB, 1)] (by decide) rfl

/-- Witness for C6: deleting the live conversation of a one-row store
(with a message and a workflow) succeeds, hides it from
`get_conversation`, and preserves the other tables; deleting an
unknown id on the empty store reports false and changes nothing. -/
theorem C6_soft_delete_witness :
    ((delete_conversation dbC6 "c1" 9).2 = true ∧
      get_conversation (delete_conversation dbC6 "c1" 9).1 "c1" = none ∧
      (delete_conversation dbC6 "c1" 9).1.messages = dbC6.messages ∧
      (delete_conversation dbC6 "c1" 9).1.workflow_states = dbC6.workflow_states ∧
      (delete_conversation dbC6 "c1" 9).1.conversations.length =
        dbC6.conversations.length ∧
      (∃ c', c' ∈ (delete_conversation dbC6 "c1" 9).1.conversations ∧ c'.id = "c1" ∧
        c'.is_deleted = true)) ∧
    delete_conversation dbEmpty "c1" 9 = (dbEmpty, false) := by
  constructor
  · exact C6_soft_delete.1 dbC6 "c1" 9 convNever rfl (by decide)
  · exact C6_soft_delete.2 dbEmpty "c1" 9 rfl

/-- Witness for C7: a conversation with 11 messages and no prior
summarization reports true; one with 5 messages reports false. -/
theorem C7_check_summarization_needed_witness :
    (∃ b, check_summarization_needed db11 "c1" = Except.ok b ∧
      (b = true ↔ (message_count db11 "c1" > 10 ∧
        (convNever.last_summarized_at = none ∨
          ∃ ts, convNever.last_summarized_at = some ts ∧
            messages_since db11 "c1" ts ≥ 5)))) ∧
    check_summarization_needed db11 "c1" = Except.ok true ∧
    check_summarization_needed db5 "c1" = Except.ok false := by
  refine ⟨C7_check_summarization_needed db11 "c1" convNever rfl, by decide, by decide⟩

/-- Witness for C10: on a store whose only "c1" row is soft-deleted,
`get_conversation` is absent and `save_message` raises the not-found
error, returning the store unchanged. -/
theorem C10_save_message_deleted_witness :
    get_conversation dbDeleted "c1" = none ∧
    save_message dbDeleted "c1" "user" "hello" 5 =
      (dbDeleted, Except.error ("Conversation not found: " ++ "c1")) := by
  have hnone := C10_save_message_deleted.2 dbDeleted "c1"
    ⟨convDeletedRow, by decide, rfl, rfl⟩ (by decide)
  exact ⟨hnone, C10_save_message_deleted.1 dbDeleted "c1" "user" "hello" 5 hnone⟩

/-! ## JSON helpers (app/utils/json_helpers.py) — `deep_merge`

Two complementary embeddings of `deep_merge`:

* a value-level one (`deep_merge` on `PyVal` association lists, the
  denotation of the function, since its writes only ever touch the
  fresh copies it makes), used for the lookup characterisation of the
  returned mapping; and
* a heap-level one (`deep_merge_st`/`deep_merge_loop` on an explicit
  store of dict cells, with `dict.copy()` as allocation and item
  assignment as a cell write), used to show the call allocates a new
  mapping and never writes any pre-existing cell — in particular
  `base`'s key set and top-level bindings are unchanged.

Python dict semantics embedded: lookup takes the first (unique) key
occurrence; assignment overwrites in place when the key exists and
appends otherwise (insertion order).  The heap recursion carries fuel
because a cyclic object graph would make Python's `deep_merge` recurse
forever; every terminating Python run corresponds to a sufficiently
large fuel. -/

inductive PyVal where
  | int : Int → PyVal
  | str : String → PyVal
  | dict : List (String × PyVal) → PyVal

/-- Python `d[k]` lookup (as an `Option`, i.e. `d.get(k)`). -/
def pyGet (d : List (String × PyVal)) (k : String) : Option PyVal :=
  (d.find? (fun p => p.1 == k)).map (fun p => p.2)

/-- Python `d[k] = v`: overwrite the first binding in place, else
append. -/
def pySet (d : List (String × PyVal)) (k : String) (v : PyVal) :
    List (String × PyVal) :=
  if (d.find? (fun p => p.1 == k)).isSome then
    updateFirst (fun p => p.1 == k) (fun p => (p.1, v)) d
  else d ++ [(k, v)]

/-- `deep_merge` (`json_helpers.py:107-126`) as a value-level
function: `result = base.copy()` then one pass over `update.items()`,
recursively merging when both sides hold a dict at the key, otherwise
letting `update`'s value win. -/
def deep_merge : List (String × PyVal) → List (String × PyVal) →
    List (String × PyVal)
  | result, [] => result
  | result, (key, value) :: rest =>
    match pyGet result key, value with
    | some (PyVal.dict bd), PyVal.dict ud =>
      deep_merge (pySet result key (PyVal.dict (deep_merge bd ud))) rest
    | _, _ => deep_merge (pySet result key value) rest
termination_by _ e => sizeOf e
decreasing_by
  all_goals simp_wf
  all_goals omega

theorem pyGet_pySet_self :
    ∀ (d : List (String × PyVal)) (k : String) (v : PyVal),
      pyGet (pySet d k v) k = some v := by
  intro d
  induction d with
  | nil => intro k v; simp [pySet, pyGet]
  | cons a t ih =>
    intro k v
    by_cases hp : (a.1 == k) = true
    · have hsome : ((a :: t).find? (fun p => p.1 == k)).isSome := by
        simp [List.find?_cons, hp]
      simp only [pySet, if_pos hsome, updateFirst, if_pos hp]
      simp [pyGet, List.find?_cons, hp]
    · have hcons : ((a :: t).find? (fun p => p.1 == k)) =
          t.find? (fun p => p.1 == k) := by
        simp [List.find?_cons, hp]
      by_cases hs : (t.find? (fun p => p.1 == k)).isSome
      · have hsome : ((a :: t).find? (fun p => p.1 == k)).isSome := by
          rw [hcons]; exact hs
        simp only [pySet, if_pos hsome, updateFirst, if_neg hp]
        have := ih k v
        rw [pySet, if_pos hs] at this
        simpa [pyGet, List.find?_cons, hp] using this
      · have hsome : ¬ ((a :: t).find? (fun p => p.1 == k)).isSome := by
          rw [hcons]; exact hs
        simp only [pySet, if_neg hsome, List.cons_append]
        have := ih k v
        rw [pySet, if_neg hs] at this
        simpa [pyGet, List.find?_cons, hp] using this

theorem pyGet_pySet_ne :
    ∀ (d : List (String × PyVal)) (k k' : String) (v : PyVal), k' ≠ k →
      pyGet (pySet d k' v) k = pyGet d k := by
  intro d
  induction d with
  | nil =>
    intro k k' v hne
    simp [pySet, pyGet, List.find?_cons, hne]
  | cons a t ih =>
    intro k k' v hne
    by_cases hp : (a.1 == k') = true
    · have hsome : ((a :: t).find? (fun p => p.1 == k')).isSome := by
        simp [List.find?_cons, hp]
      simp only [pySet, if_pos hsome, updateFirst, if_pos hp]
      by_cases hk : (a.1 == k) = true
      · have hak' : a.1 = k' := by simpa using hp
        have hak2 : a.1 = k := by simpa using hk
        exact absurd (hak'.symm.trans hak2) hne
      · simp [pyGet, List.find?_cons, hk]
    · have hcons : ((a :: t).find? (fun p => p.1 == k')) =
          t.find? (fun p => p.1 == k') := by
        simp [List.find?_cons, hp]
      by_cases hs : (t.find? (fun p => p.1 == k')).isSome
      · have hsome : ((a :: t).find? (fun p => p.1 == k')).isSome := by
          rw [hcons]; exact hs
        simp only [pySet, if_pos hsome, updateFirst, if_neg hp]
        have := ih k k' v hne
        rw [pySet, if_pos hs] at this
        by_cases hk : (a.1 == k) = true
        · simp [pyGet, List.find?_cons, hk]
        · simpa [pyGet, List.find?_cons, hk] using this
      · have hsome : ¬ ((a :: t).find? (fun p => p.1 == k')).isSome := by
          rw [hcons]; exact hs
        simp only [pySet, if_neg hsome, List.cons_append]
        have := ih k k' v hne
        rw [pySet, if_neg hs] at this
        by_cases hk : (a.1 == k) = true
        · simp [pyGet, List.find?_cons, hk]
        · simpa [pyGet, List.find?_cons, hk] using this

/-- The per-key value chosen by the loop body of `deep_merge`:
recursive merge when the key maps to a dict on both sides, otherwise
`update`'s value. -/
def mergeVal (result : List (String × PyVal)) (key : String) (value : PyVal) : PyVal :=
  match pyGet result key, value with
  | some (PyVal.dict bd), PyVal.dict ud => PyVal.dict (deep_merge bd ud)
  | _, _ => value

theorem mergeVal_eq_of_none (result : List (String × PyVal)) (key : String)
    (value : PyVal) (h : pyGet result key = none) :
    mergeVal result key value = value := by
  unfold mergeVal
  rw [h]

theorem mergeVal_both_dicts (result : List (String × PyVal)) (key : String)
    (bd ud : List (String × PyVal)) (h : pyGet result key = some (PyVal.dict bd)) :
    mergeVal result key (PyVal.dict ud) = PyVal.dict (deep_merge bd ud) := by
  unfold mergeVal
  rw [h]

theorem mergeVal_not_both (result : List (String × PyVal)) (key : String)
    (value : PyVal)
    (hnot : ¬ ∃ bd ud, pyGet result key = some (PyVal.dict bd) ∧
      value = PyVal.dict ud) :
    mergeVal result key value = value := by
  cases hpg : pyGet result key with
  | none => exact mergeVal_eq_of_none result key value hpg
  | some pv =>
    cases pv with
    | int n => unfold mergeVal; rw [hpg]
    | str t => unfold mergeVal; rw [hpg]
    | dict bd =>
      cases value with
      | int n => unfold mergeVal; rw [hpg]
      | str t => unfold mergeVal; rw [hpg]
      | dict ud => exact absurd ⟨bd, ud, hpg, rfl⟩ hnot

theorem deep_merge_cons (result : List (String × PyVal)) (key : String)
    (value : PyVal) (rest : List (String × PyVal)) :
    deep_merge result ((key, value) :: rest) =
      deep_merge (pySet result key (mergeVal result key value)) rest := by
  cases hpg : pyGet result key with
  | none =>
    rw [mergeVal_eq_of_none result key value hpg]
    conv_lhs => rw [deep_merge.eq_def]
    dsimp only
    rw [hpg]
  | some pv =>
    cases pv with
    | int n =>
      rw [mergeVal_not_both result key value
        (by rintro ⟨bd, ud, hb, -⟩; rw [hpg] at hb
            exact PyVal.noConfusion (Option.some.inj hb))]
      conv_lhs => rw [deep_merge.eq_def]
      dsimp only
      rw [hpg]
    | str t =>
      rw [mergeVal_not_both result key value
        (by rintro ⟨bd, ud, hb, -⟩; rw [hpg] at hb
            exact PyVal.noConfusion (Option.some.inj hb))]
      conv_lhs => rw [deep_merge.eq_def]
      dsimp only
      rw [hpg]
    | dict bd =>
      cases value with
      | int n =>
        rw [mergeVal_not_both result key (PyVal.int n) (by rintro ⟨bd', ud', -, hv⟩; exact PyVal.noConfusion hv)]
        conv_lhs => rw [deep_merge.eq_def]
        dsimp only
        rw [hpg]
      | str t =>
        rw [mergeVal_not_both result key (PyVal.str t) (by rintro ⟨bd', ud', -, hv⟩; exact PyVal.noConfusion hv)]
        conv_lhs => rw [deep_merge.eq_def]
        dsimp only
        rw [hpg]
      | dict ud =>
        rw [mergeVal_both_dicts result key bd ud hpg]
        conv_lhs => rw [deep_merge.eq_def]
        dsimp only
        rw [hpg]

/-- A key absent from `update` is untouched by the merge loop. -/
theorem deep_merge_get_not_mem (k : String) :
    ∀ (update result : List (String × PyVal)),
      (∀ p ∈ update, p.1 ≠ k) →
      pyGet (deep_merge result update) k = pyGet result k := by
  intro update
  induction update with
  | nil => intro result _; rw [deep_merge]
  | cons a rest ih =>
    intro result hmem
    obtain ⟨key, value⟩ := a
    rw [deep_merge_cons, ih _ (fun p hp => hmem p (List.mem_cons_of_mem _ hp))]
    exact pyGet_pySet_ne _ k key _ (hmem (key, value) (List.mem_cons_self _ _))

/-- Lookup characterisation of `deep_merge`: for each key, both-dicts
keys map to the recursive merge, other `update` keys take `update`'s
value, and keys absent from `update` keep `base`'s binding. -/
theorem deep_merge_lookup (k : String) :
    ∀ (update base : List (String × PyVal)), (update.map Prod.fst).Nodup →
      (∀ bd ud, pyGet base k = some (PyVal.dict bd) →
        pyGet update k = some (PyVal.dict ud) →
        pyGet (deep_merge base update) k = some (PyVal.dict (deep_merge bd ud))) ∧
      (∀ v, pyGet update k = some v →
        (¬ ∃ bd ud, pyGet base k = some (PyVal.dict bd) ∧ v = PyVal.dict ud) →
        pyGet (deep_merge base update) k = some v) ∧
      (pyGet update k = none → pyGet (deep_merge base update) k = pyGet base k) := by
  intro update
  induction update with
  | nil =>
    intro base _
    refine ⟨?_, ?_, ?_⟩
    · intro bd ud _ hu
      exact absurd hu (by simp [pyGet])
    · intro v hu _
      exact absurd hu (by simp [pyGet])
    · intro _
      rw [deep_merge]
  | cons a rest ih =>
    intro base hnodup
    obtain ⟨key, value⟩ := a
    rw [List.map_cons, List.nodup_cons] at hnodup
    by_cases hk : (key == k) = true
    · have hkeq : key = k := by simpa using hk
      subst hkeq
      have hupd : pyGet ((key, value) :: rest) key = some value := by
        simp [pyGet, List.find?_cons]
      have hrest_ne : ∀ p ∈ rest, p.1 ≠ key := by
        intro p hp hpk
        have hmm : p.1 ∈ rest.map Prod.fst := List.mem_map_of_mem Prod.fst hp
        rw [hpk] at hmm
        exact hnodup.1 hmm
      have hfinal : pyGet (deep_merge base ((key, value) :: rest)) key =
          some (mergeVal base key value) := by
        rw [deep_merge_cons, deep_merge_get_not_mem key rest _ hrest_ne, pyGet_pySet_self]
      refine ⟨?_, ?_, ?_⟩
      · intro bd ud hb hu
        rw [hupd] at hu
        obtain rfl := Option.some.inj hu
        rw [hfinal, mergeVal_both_dicts base key bd ud hb]
      · intro v hu hnot
        rw [hupd] at hu
        obtain rfl := Option.some.inj hu
        rw [hfinal, mergeVal_not_both base key value hnot]
      · intro hu
        rw [hupd] at hu
        exact Option.noConfusion hu
    · have hkne : key ≠ k := by simpa using hk
      have hupd : pyGet ((key, value) :: rest) k = pyGet rest k := by
        simp [pyGet, List.find?_cons, hk]
      have hbase' : pyGet (pySet base key (mergeVal base key value)) k = pyGet base k :=
        pyGet_pySet_ne base k key _ hkne
      have ihr := ih (pySet base key (mergeVal base key value)) hnodup.2
      refine ⟨?_, ?_, ?_⟩
      · intro bd ud hb hu
        rw [hupd] at hu
        rw [deep_merge_cons]
        exact ihr.1 bd ud (by rw [hbase']; exact hb) hu
      · intro v hu hnot
        rw [hupd] at hu
        rw [deep_merge_cons]
        exact ihr.2.1 v hu (by rw [hbase']; exact hnot)
      · intro hu
        rw [hupd] at hu
        rw [deep_merge_cons, ihr.2.2 hu, hbase']

/-! Heap-level embedding of `deep_merge`.  A store is a list of dict
cells addressed by index; `HVal.ref` is a pointer to a cell.
`deep_merge_st fuel s base update` runs `deep_merge` on the dicts at
addresses `base` and `update`: `result = base.copy()` allocates a
fresh cell at the end of the store, and the loop writes only into
`result` (and into the fresh cells of recursive merges).  The entries
of `update` are read once at loop entry; this matches Python's live
iteration because no pre-existing cell — in particular `update`'s — is
ever written (the frame theorem below). -/

inductive HVal where
  | int : Int → HVal
  | str : String → HVal
  | ref : Nat → HVal
deriving DecidableEq, Repr

abbrev Cell : Type := List (String × HVal)

abbrev Store : Type := List Cell

def lookupCell (s : Store) (a : Nat) : Cell := List.getD s a []

def writeCell (s : Store) (a : Nat) (c : Cell) : Store := List.set s a c

/-- Python `d[k] = v` on a cell: overwrite the first binding in place,
else append. -/
def setKeyCell (c : Cell) (k : String) (v : HVal) : Cell :=
  if (List.find? (fun p => p.1 == k) c).isSome then
    updateFirst (fun p => p.1 == k) (fun p => (p.1, v)) c
  else c ++ [(k, v)]

mutual

/-- `deep_merge(base, update)` at heap level: allocate
`result = base.copy()` as a fresh cell, then run the loop over
`update`'s items.  Fuel bounds the recursion depth (a cyclic object
graph would make the Python function recurse forever); `none` means
fuel ran out. -/
def deep_merge_st : Nat → Store → Nat → Nat → Option (Store × Nat)
  | 0, _, _, _ => none
  | fuel + 1, s, base, update =>
    deep_merge_loop fuel (s ++ [lookupCell s base]) s.length
      (lookupCell s update)
termination_by fuel _ _ _ => (fuel, 0, 0)

/-- The `for key, value in update.items()` loop: when both the current
`result[key]` and `value` are dict references, recursively merge them
and bind `key` to the freshly merged dict; otherwise `update`'s value
wins.  Every write targets the `result` cell. -/
def deep_merge_loop : Nat → Store → Nat → List (String × HVal) → Option (Store × Nat)
  | _, s, result, [] => some (s, result)
  | fuel, s, result, (key, value) :: rest =>
    match List.find? (fun p => p.1 == key) (lookupCell s result), value with
    | some (_, HVal.ref ba), HVal.ref ua =>
      match deep_merge_st fuel s ba ua with
      | none => none
      | some (s', m) =>
        deep_merge_loop fuel
          (writeCell s' result (setKeyCell (lookupCell s' result) key (HVal.ref m)))
          result rest
    | _, _ =>
      deep_merge_loop fuel
        (writeCell s result (setKeyCell (lookupCell s result) key value))
        result rest
termination_by fuel _ _ entries => (fuel, 1, entries.length)

end

theorem lookupCell_append (s : Store) (c : Cell) (i : Nat) (h : i < s.length) :
    lookupCell (s ++ [c]) i = lookupCell s i :=
  List.getD_append s [c] [] i h

theorem length_writeCell (s : Store) (a : Nat) (c : Cell) :
    (writeCell s a c).length = s.length :=
  List.length_set s a c

theorem lookupCell_writeCell_ne :
    ∀ (s : Store) (a i : Nat) (c : Cell), i ≠ a →
      lookupCell (writeCell s a c) i = lookupCell s i := by
  intro s
  induction s with
  | nil => intro a i c _; rfl
  | cons x xs ih =>
    intro a i c h
    cases a with
    | zero =>
      cases i with
      | zero => exact absurd rfl h
      | succ j => simp [writeCell, lookupCell, List.set, List.getD_cons_succ]
    | succ n =>
      cases i with
      | zero => simp [writeCell, lookupCell, List.set, List.getD_cons_zero]
      | succ j =>
        have hne : j ≠ n := fun hc => h (by rw [hc])
        have := ih n j c hne
        simpa [writeCell, lookupCell, List.set, List.getD_cons_succ] using this

/-- Frame property of the merge loop: assuming the frame property of
`deep_merge_st` at the same fuel, the loop only grows the store, keeps
the result address, and never changes a cell below `n0` when `n0` is
below both the store watermark and the result address. -/
theorem deep_merge_loop_frame (fuel : Nat)
    (hst : ∀ (s : Store) (b u : Nat) (t : Store) (r : Nat),
      deep_merge_st fuel s b u = some (t, r) →
      s.length ≤ t.length ∧ r = s.length ∧
      ∀ i, i < s.length → lookupCell t i = lookupCell s i) :
    ∀ (entries : List (String × HVal)) (s : Store) (result : Nat) (t : Store) (r' : Nat),
      deep_merge_loop fuel s result entries = some (t, r') →
      ∀ n0, n0 ≤ s.length → n0 ≤ result →
        s.length ≤ t.length ∧ r' = result ∧
        ∀ i, i < n0 → lookupCell t i = lookupCell s i := by
  intro entries
  induction entries with
  | nil =>
    intro s result t r' h n0 _ _
    rw [deep_merge_loop] at h
    obtain ⟨rfl, rfl⟩ := Prod.mk.inj (Option.some.inj h)
    exact ⟨le_rfl, rfl, fun i _ => rfl⟩
  | cons a rest ih =>
    intro s result t r' h n0 hn0 hres
    obtain ⟨key, value⟩ := a
    have hgen : ∀ (s1 : Store) (c : Cell),
        s.length ≤ s1.length →
        (∀ i, i < n0 → lookupCell s1 i = lookupCell s i) →
        deep_merge_loop fuel (writeCell s1 result c) result rest = some (t, r') →
        s.length ≤ t.length ∧ r' = result ∧
        ∀ i, i < n0 → lookupCell t i = lookupCell s i := by
      intro s1 c hlen1 hpres1 hrec
      have h2 := ih (writeCell s1 result c) result t r' hrec n0
        (by rw [length_writeCell]; omega) hres
      rw [length_writeCell] at h2
      refine ⟨by omega, h2.2.1, ?_⟩
      intro i hi
      rw [h2.2.2 i hi, lookupCell_writeCell_ne s1 result i c (by omega), hpres1 i hi]
    rw [deep_merge_loop.eq_def] at h
    dsimp only at h
    cases hcur : List.find? (fun p => p.1 == key) (lookupCell s result) with
    | none =>
      rw [hcur] at h
      cases value <;> exact hgen s _ le_rfl (fun _ _ => rfl) h
    | some p0 =>
      obtain ⟨k0, v0⟩ := p0
      cases v0 with
      | int n =>
        rw [hcur] at h
        cases value <;> exact hgen s _ le_rfl (fun _ _ => rfl) h
      | str st =>
        rw [hcur] at h
        cases value <;> exact hgen s _ le_rfl (fun _ _ => rfl) h
      | ref ba =>
        rw [hcur] at h
        cases value with
        | int n => exact hgen s _ le_rfl (fun _ _ => rfl) h
        | str st => exact hgen s _ le_rfl (fun _ _ => rfl) h
        | ref ua =>
          dsimp only at h
          cases hmerge : deep_merge_st fuel s ba ua with
          | none =>
            rw [hmerge] at h
            exact Option.noConfusion h
          | some pr =>
            obtain ⟨s1, m⟩ := pr
            rw [hmerge] at h
            obtain ⟨hlen1, -, hpres1⟩ := hst s ba ua s1 m hmerge
            exact hgen s1 _ hlen1 (fun i hi => hpres1 i (by omega)) h

/-- Frame property of `deep_merge_st`: a successful run only appends
to the store, returns a fresh address (exactly the old store length),
and leaves every pre-existing cell unchanged. -/
theorem deep_merge_st_frame :
    ∀ (fuel : Nat) (s : Store) (b u : Nat) (t : Store) (r : Nat),
      deep_merge_st fuel s b u = some (t, r) →
      s.length ≤ t.length ∧ r = s.length ∧
      ∀ i, i < s.length → lookupCell t i = lookupCell s i := by
  intro fuel
  induction fuel with
  | zero =>
    intro s b u t r h
    rw [deep_merge_st] at h
    exact Option.noConfusion h
  | succ n ih =>
    intro s b u t r h
    rw [deep_merge_st] at h
    have hloop := deep_merge_loop_frame n ih _ _ _ _ _ h s.length (by simp) le_rfl
    obtain ⟨hlen, hr, hpres⟩ := hloop
    refine ⟨le_trans (by simp) hlen, hr, ?_⟩
    intro i hi
    rw [hpres i hi, lookupCell_append s _ i hi]

/-- C8: `deep_merge` characterisation.  Value level: for every pair of
mappings and every key, a key bound to a dict in both maps to the
recursive merge of the two, every other key of `update` maps to
`update`'s value, and a key absent from `update` keeps `base`'s
binding.  Heap level: a successful run returns a freshly allocated
mapping (its address is the old store length, distinct from every
pre-existing address) and leaves every pre-existing cell unchanged —
in particular `base`'s key set and top-level bindings. -/
theorem C8_deep_merge :
    (∀ (base update : List (String × PyVal)) (k : String),
      (update.map Prod.fst).Nodup →
      (∀ bd ud, pyGet base k = some (PyVal.dict bd) →
        pyGet update k = some (PyVal.dict ud) →
        pyGet (deep_merge base update) k = some (PyVal.dict (deep_merge bd ud))) ∧
      (∀ v, pyGet update k = some v →
        (¬ ∃ bd ud, pyGet base k = some (PyVal.dict bd) ∧ v = PyVal.dict ud) →
        pyGet (deep_merge base update) k = some v) ∧
      (pyGet update k = none → pyGet (deep_merge base update) k = pyGet base k)) ∧
    (∀ (fuel : Nat) (s : Store) (base update : Nat) (t : Store) (r : Nat),
      base < s.length →
      deep_merge_st fuel s base update = some (t, r) →
      lookupCell t base = lookupCell s base ∧ r = s.length ∧ s.length ≤ t.length) := by
  constructor
  · intro base update k h
    exact deep_merge_lookup k update base h
  · intro fuel s base update t r hb h
    obtain ⟨hlen, hr, hpres⟩ := deep_merge_st_frame fuel s base update t r h
    exact ⟨hpres base hb, hr, hlen⟩

def mergeBase : List (String × PyVal) :=
  [("a", PyVal.int 1), ("n", PyVal.dict [("x", PyVal.int 1), ("y", PyVal.int 2)])]

def mergeUpdate : List (String × PyVal) :=
  [("b", PyVal.int 3), ("n", PyVal.dict [("y", PyVal.int 5)])]

def storeEx : Store := [[("a", HVal.int 1)], [("b", HVal.int 2)]]

def storeExOut : Store :=
  [[("a", HVal.int 1)], [("b", HVal.int 2)], [("a", HVal.int 1), ("b", HVal.int 2)]]

theorem deep_merge_st_storeEx :
    deep_merge_st 1 storeEx 0 1 = some (storeExOut, 2) := by
  rw [deep_merge_st]
  rw [show lookupCell storeEx 1 = [("b", HVal.int 2)] from rfl]
  rw [show storeEx ++ [lookupCell storeEx 0] =
    [[("a", HVal.int 1)], [("b", HVal.int 2)], [("a", HVal.int 1)]] from rfl]
  rw [show (List.length storeEx) = 2 from rfl]
  rw [deep_merge_loop.eq_def]
  dsimp only
  rw [show List.find? (fun p => p.1 == "b")
    (lookupCell [[("a", HVal.int 1)], [("b", HVal.int 2)], [("a", HVal.int 1)]] 2) =
    none from rfl]
  dsimp only
  rw [deep_merge_loop]
  rfl

/-- Witness for C8: a concrete merge where "n" is a dict on both sides
(recursively merged), "b" comes from `update`, and "a" survives from
`base`; and a concrete two-cell heap run whose result is the fresh
address 2, with both original cells unchanged. -/
theorem C8_deep_merge_witness :
    pyGet (deep_merge mergeBase mergeUpdate) "n" =
      some (PyVal.dict (deep_merge [("x", PyVal.int 1), ("y", PyVal.int 2)]
        [("y", PyVal.int 5)])) ∧
    pyGet (deep_merge mergeBase mergeUpdate) "b" = some (PyVal.int 3) ∧
    pyGet (deep_merge mergeBase mergeUpdate) "a" = pyGet mergeBase "a" ∧
    (lookupCell storeExOut 0 = lookupCell storeEx 0 ∧ 2 = storeEx.length ∧
      storeEx.length ≤ storeExOut.length) := by
  refine ⟨?_, ?_, ?_, ?_⟩
  · exact (C8_deep_merge.1 mergeBase mergeUpdate "n" (by decide)).1
      [("x", PyVal.int 1), ("y", PyVal.int 2)] [("y", PyVal.int 5)] rfl rfl
  · exact (C8_deep_merge.1 mergeBase mergeUpdate "b" (by decide)).2.1
      (PyVal.int 3) rfl
      (by rintro ⟨bd, ud, h1, -⟩; exact Option.noConfusion h1)
  · exact (C8_deep_merge.1 mergeBase mergeUpdate "a" (by decide)).2.2 rfl
  · exact C8_deep_merge.2 1 storeEx 0 1 storeExOut 2 (by decide) deep_merge_st_storeEx
